/-
  Verification of the resource-collection pipeline of `kubectl-get-resources`
  (src/cmd/kubectl-get-resources/main.go).

  Shallow-embedding conventions:
  * Go strings are modelled as `List Char` (abbreviated `Str`); the empty Go
    string is `[]`.
  * Go `time.Time` instants are modelled as `Nat`: the number of nanoseconds
    from the Go zero instant (0001-01-01T00:00:00Z).  The Go zero value of
    `time.Time` is `0`, so `IsZero()` becomes `= 0`; `t.Before u` is `t < u`
    and `t.After u` is `t > u`.  RFC 3339 timestamps denote instants at or
    after the zero instant.
  * External collaborators (the RFC 3339 parser `time.Parse`, the RFC 3339
    formatter, `schema.ParseGroupVersion`, the discovery and dynamic clients)
    are passed in as function arguments; the theorems quantify over them.
  * Fallible Go functions returning `(T, error)` become `Except String T`
    or `Option T`.
-/
import Mathlib

namespace GR

/-- Go strings, modelled as lists of characters. -/
abbrev Str := List Char

/-- String constant "v1". -/
def v1Str : Str := "v1".data

/-- String constant "events". -/
def eventsStr : Str := "events".data

/-- String constant "Event". -/
def eventKind : Str := "Event".data

/-- String constant "openshift.io", the group suffix tested by the tree sink. -/
def osSuffix : Str := "openshift.io".data

/-- String constant "openshift_", the filename disambiguation marker. -/
def osMark : Str := "openshift_".data

/-- String constant ".yaml". -/
def yamlExt : Str := ".yaml".data

/-- String constant "*", the all-namespaces flag value. -/
def starStr : Str := "*".data

/-- The struct `ResourceFilter` (main.go lines 36-43).  The four temporal
fields are Go `time.Time` values whose zero value (here `0`) means the bound
is unset; `OutputDir` empty means no tree output; `ResourceData` is the
`--resource-data` flag. -/
structure ResourceFilter where
  Before : Nat
  After : Nat
  Start : Nat
  End : Nat
  OutputDir : Str
  ResourceData : Bool
deriving DecidableEq

/-- The time filter applied to each object's creation timestamp: the three
`continue` checks at the top of `filterAndOutput` (main.go lines 352-361),
returned as `true` when none of them fires.  A bound equal to `0` is the Go
zero `time.Time`, i.e. unset (`IsZero`). -/
def passesTimeFilter (f : ResourceFilter) (created : Nat) : Bool :=
  if f.Before ≠ 0 ∧ ¬ created < f.Before then false
  else if f.After ≠ 0 ∧ ¬ created > f.After then false
  else if f.Start ≠ 0 ∧ (created < f.Start ∨ created > f.End) then false
  else true

/-- Parsing of one optional timestamp flag inside `validateAndBuildFilter`
(main.go lines 196-207): an empty string leaves the field at the zero value,
a non-empty string must parse or the builder fails. -/
def parseOpt (parse : Str → Option Nat) (s : Str) (msg : String) : Except String Nat :=
  if s = [] then .ok 0
  else
    match parse s with
    | some t => .ok t
    | none => .error msg

/-- Parsing of the `--start`/`--end` pair inside `validateAndBuildFilter`
(main.go lines 208-217): both fields stay at the zero value unless
`startStr` is non-empty, in which case both strings are parsed. -/
def parseWindow (parse : Str → Option Nat) (startS endS : Str) : Except String (Nat × Nat) :=
  if startS = [] then .ok (0, 0)
  else
    match parse startS with
    | none => .error "invalid --start timestamp"
    | some s =>
      match parse endS with
      | none => .error "invalid --end timestamp"
      | some e => .ok (s, e)

/-- The filter builder `validateAndBuildFilter` (main.go lines 182-226),
parameterised by the external RFC 3339 parser `parse` (Go `time.Parse`,
returning `none` on a parse error). -/
def validateAndBuildFilter (parse : Str → Option Nat)
    (beforeS afterS startS endS output : Str) (resourceData : Bool) :
    Except String ResourceFilter :=
  if beforeS ≠ [] ∧ afterS ≠ [] then .error "cannot use both --before and --after"
  else if (startS ≠ [] ∧ endS = []) ∨ (startS = [] ∧ endS ≠ []) then
    .error "--start and --end must be used together"
  else if (beforeS ≠ [] ∨ afterS ≠ []) ∧ (startS ≠ [] ∨ endS ≠ []) then
    .error "--before/--after cannot be used with --start/--end"
  else
    match parseOpt parse beforeS "invalid --before timestamp" with
    | .error m => .error m
    | .ok before =>
      match parseOpt parse afterS "invalid --after timestamp" with
      | .error m => .error m
      | .ok after =>
        match parseWindow parse startS endS with
        | .error m => .error m
        | .ok (s, e) =>
          if resourceData ∧ output ≠ [] then
            .error "--resource-data and --output are mutually exclusive"
          else .ok ⟨before, after, s, e, output, resourceData⟩

/-- Go helper `contains` (main.go lines 228-235). -/
def contains : List Str → Str → Bool
  | [], _ => false
  | v :: rest, val => if v = val then true else contains rest val

/-- C1: for every object with creation timestamp `t` and every filter, the
time filter passes the object iff (before unset or `t <` before) and (after
unset or `t >` after) and (start unset or start `≤ t ≤` end): `before` and
`after` are strictly exclusive, the window is inclusive at both ends, and an
unset (zero) bound never rejects. -/
theorem passesTimeFilter_boundaries (f : ResourceFilter) (t : Nat) :
    passesTimeFilter f t = true ↔
      (f.Before = 0 ∨ t < f.Before) ∧ (f.After = 0 ∨ f.After < t) ∧
        (f.Start = 0 ∨ (f.Start ≤ t ∧ t ≤ f.End)) := by
  unfold passesTimeFilter
  split_ifs with h1 h2 h3 <;> simp <;> omega

/-- Destructuring of a successful `parseOpt`. -/
lemma parseOpt_ok_elim (parse : Str → Option Nat) (s : Str) (msg : String) (v : Nat)
    (h : parseOpt parse s msg = .ok v) :
    (s = [] ∧ v = 0) ∨ (s ≠ [] ∧ parse s = some v) := by
  unfold parseOpt at h
  split_ifs at h with hs
  · cases h; exact Or.inl ⟨hs, rfl⟩
  · cases hp : parse s with
    | none => rw [hp] at h; exact absurd h (by simp)
    | some t => rw [hp] at h; cases h; exact Or.inr ⟨hs, rfl⟩

/-- Destructuring of a successful `parseWindow`. -/
lemma parseWindow_ok_elim (parse : Str → Option Nat) (sS eS : Str) (s e : Nat)
    (h : parseWindow parse sS eS = .ok (s, e)) :
    (sS = [] ∧ s = 0 ∧ e = 0) ∨ (sS ≠ [] ∧ parse sS = some s ∧ parse eS = some e) := by
  unfold parseWindow at h
  split_ifs at h with hs
  · simp only [Except.ok.injEq, Prod.mk.injEq] at h
    exact Or.inl ⟨hs, h.1.symm, h.2.symm⟩
  · cases hp : parse sS with
    | none => rw [hp] at h; exact absurd h (by simp)
    | some s' =>
      rw [hp] at h
      cases hq : parse eS with
      | none => rw [hq] at h; exact absurd h (by simp)
      | some e' =>
        rw [hq] at h
        simp only [Except.ok.injEq, Prod.mk.injEq] at h
        exact Or.inr ⟨hs, by rw [h.1], by rw [h.2]⟩

/-- Full destructuring of a successful run of the filter builder: which raw
strings were empty, what the parser returned, and which validation checks
were passed. -/
lemma validateAndBuildFilter_ok_cases (parse : Str → Option Nat)
    (bS aS sS eS o : Str) (rd : Bool) (f : ResourceFilter)
    (h : validateAndBuildFilter parse bS aS sS eS o rd = .ok f) :
    f.OutputDir = o ∧ f.ResourceData = rd ∧ ¬(rd = true ∧ o ≠ []) ∧
    ((bS = [] ∧ f.Before = 0) ∨ (bS ≠ [] ∧ parse bS = some f.Before)) ∧
    ((aS = [] ∧ f.After = 0) ∨ (aS ≠ [] ∧ parse aS = some f.After)) ∧
    ((sS = [] ∧ eS = [] ∧ f.Start = 0 ∧ f.End = 0) ∨
      (sS ≠ [] ∧ eS ≠ [] ∧ parse sS = some f.Start ∧ parse eS = some f.End)) ∧
    ¬(bS ≠ [] ∧ aS ≠ []) ∧ ¬((bS ≠ [] ∨ aS ≠ []) ∧ (sS ≠ [] ∨ eS ≠ [])) := by
  unfold validateAndBuildFilter at h
  split_ifs at h with h1 h2 h3 hro
  · exfalso
    revert h
    cases parseOpt parse bS "invalid --before timestamp" <;>
      cases parseOpt parse aS "invalid --after timestamp" <;>
        rcases parseWindow parse sS eS with m | ⟨s, e⟩ <;> simp
  · cases hb : parseOpt parse bS "invalid --before timestamp" with
    | error m => rw [hb] at h; exact absurd h (by simp)
    | ok before =>
      rw [hb] at h
      cases ha : parseOpt parse aS "invalid --after timestamp" with
      | error m => rw [ha] at h; exact absurd h (by simp)
      | ok after =>
        rw [ha] at h
        cases hw : parseWindow parse sS eS with
        | error m => rw [hw] at h; exact absurd h (by simp)
        | ok se =>
          rw [hw] at h
          obtain ⟨s, e⟩ := se
          simp only [Except.ok.injEq] at h
          subst h
          refine ⟨rfl, rfl, hro, parseOpt_ok_elim _ _ _ _ hb, parseOpt_ok_elim _ _ _ _ ha,
            ?_, h1, h3⟩
          rcases parseWindow_ok_elim _ _ _ _ _ hw with ⟨hsnil, hs0, he0⟩ | ⟨hsne, hps, hpe⟩
          · refine Or.inl ⟨hsnil, ?_, hs0, he0⟩
            by_contra hene
            exact h2 (Or.inr ⟨hsnil, hene⟩)
          · refine Or.inr ⟨hsne, ?_, hps, hpe⟩
            intro hee
            exact h2 (Or.inl ⟨hsne, hee⟩)

/-- C2 (amended): when the filter builder succeeds, the returned Filter
satisfies the mutual-exclusion invariants at the field level (a field is
set iff it is a non-zero instant, matching the predicate's `IsZero` tests):
before/after never both set; a set start or end forces before and after
unset; `ResourceData` set forces an empty `OutputDir`; and, provided the
parser never returns the zero instant, start and end are both set or both
unset.  Moreover a non-empty input whose parse fails always produces an
error. -/
theorem validateAndBuildFilter_invariants (parse : Str → Option Nat)
    (bS aS sS eS o : Str) (rd : Bool) :
    (∀ f, validateAndBuildFilter parse bS aS sS eS o rd = .ok f →
      (f.Before = 0 ∨ f.After = 0) ∧
      ((f.Start ≠ 0 ∨ f.End ≠ 0) → f.Before = 0 ∧ f.After = 0) ∧
      (f.ResourceData = true → f.OutputDir = []) ∧
      ((∀ x t, parse x = some t → 0 < t) → (f.Start = 0 ↔ f.End = 0))) ∧
    (((bS ≠ [] ∧ parse bS = none) ∨ (aS ≠ [] ∧ parse aS = none) ∨
        (sS ≠ [] ∧ parse sS = none) ∨ (eS ≠ [] ∧ parse eS = none)) →
      ∃ m, validateAndBuildFilter parse bS aS sS eS o rd = .error m) := by
  constructor
  · intro f h
    obtain ⟨ho, hrd, hro, hb, ha, hw, h1, h3⟩ := validateAndBuildFilter_ok_cases _ _ _ _ _ _ _ _ h
    refine ⟨?_, ?_, ?_, ?_⟩
    · rcases hb with ⟨_, hb0⟩ | ⟨hbne, _⟩
      · exact Or.inl hb0
      · rcases ha with ⟨_, ha0⟩ | ⟨hane, _⟩
        · exact Or.inr ha0
        · exact absurd ⟨hbne, hane⟩ h1
    · intro hse
      rcases hw with ⟨_, _, hs0, he0⟩ | ⟨hsne, _, _, _⟩
      · rcases hse with hne | hne
        · exact absurd hs0 hne
        · exact absurd he0 hne
      · have hba : ¬(bS ≠ [] ∨ aS ≠ []) := fun hc => h3 ⟨hc, Or.inl hsne⟩
        push_neg at hba
        constructor
        · rcases hb with ⟨_, hb0⟩ | ⟨hbne, _⟩
          · exact hb0
          · exact absurd hba.1 hbne
        · rcases ha with ⟨_, ha0⟩ | ⟨hane, _⟩
          · exact ha0
          · exact absurd hba.2 hane
    · intro hrdt
      rw [ho]
      by_contra hone
      exact hro ⟨hrd ▸ hrdt, hone⟩
    · intro hpos
      rcases hw with ⟨_, _, hs0, he0⟩ | ⟨_, _, hps, hpe⟩
      · rw [hs0, he0]
      · have h5 := hpos _ _ hps
        have h6 := hpos _ _ hpe
        omega
  · intro hbad
    cases hres : validateAndBuildFilter parse bS aS sS eS o rd with
    | error m => exact ⟨m, rfl⟩
    | ok f =>
      exfalso
      obtain ⟨_, _, _, hb, ha, hw, _, _⟩ := validateAndBuildFilter_ok_cases _ _ _ _ _ _ _ _ hres
      rcases hbad with ⟨hne, hn⟩ | ⟨hne, hn⟩ | ⟨hne, hn⟩ | ⟨hne, hn⟩
      · rcases hb with ⟨hnil, _⟩ | ⟨_, hsome⟩
        · exact hne hnil
        · rw [hn] at hsome; exact absurd hsome (by simp)
      · rcases ha with ⟨hnil, _⟩ | ⟨_, hsome⟩
        · exact hne hnil
        · rw [hn] at hsome; exact absurd hsome (by simp)
      · rcases hw with ⟨hnil, _, _, _⟩ | ⟨_, _, hsome, _⟩
        · exact hne hnil
        · rw [hn] at hsome; exact absurd hsome (by simp)
      · rcases hw with ⟨_, hnil, _, _⟩ | ⟨_, _, _, hsome⟩
        · exact hne hnil
        · rw [hn] at hsome; exact absurd hsome (by simp)

/-- Parser instance for the C2 counterexample: Go `time.Parse` accepts the
RFC 3339 string 0001-01-01T00:00:00Z and returns the zero `time.Time` for
it (instant `0`), and maps 2025-01-01T00:00:00Z to some later (non-zero)
instant, abstracted here as `2025`. -/
def parseZeroCase : Str → Option Nat := fun x =>
  if x = "0001-01-01T00:00:00Z".data then some 0
  else if x = "2025-01-01T00:00:00Z".data then some 2025
  else none

/-- C2 counterexample: with `--start=0001-01-01T00:00:00Z` (which parses to
the Go zero instant) and `--end=2025-01-01T00:00:00Z`, the builder succeeds
and returns a Filter whose `Start` field is unset (the zero value the
predicate treats as no bound) while its `End` field is set — violating the
claimed invariant that start and end are both set or both unset. -/
theorem validateAndBuildFilter_zero_start_violation :
    validateAndBuildFilter parseZeroCase [] [] ( "0001-01-01T00:00:00Z".data)
        ( "2025-01-01T00:00:00Z".data) [] false = .ok ⟨0, 0, 0, 2025, [], false⟩ ∧
    (⟨0, 0, 0, 2025, [], false⟩ : ResourceFilter).Start = 0 ∧
    (⟨0, 0, 0, 2025, [], false⟩ : ResourceFilter).End ≠ 0 := by
  refine ⟨?_, rfl, by decide⟩
  rfl

/-- Witness for `validateAndBuildFilter_invariants` at concrete inputs. -/
theorem validateAndBuildFilter_invariants_witness :
    ((⟨5, 0, 0, 0, ['d'], false⟩ : ResourceFilter).Before = 0 ∨
      (⟨5, 0, 0, 0, ['d'], false⟩ : ResourceFilter).After = 0) ∧
    (∃ m, validateAndBuildFilter (fun x => if x = ['b'] then some 5 else none)
        ['x'] [] [] [] ['d'] false = .error m) := by
  constructor
  · exact ((validateAndBuildFilter_invariants
      (fun x => if x = ['b'] then some 5 else none) ['b'] [] [] [] ['d'] false).1
      ⟨5, 0, 0, 0, ['d'], false⟩ rfl).1
  · exact (validateAndBuildFilter_invariants
      (fun x => if x = ['b'] then some 5 else none) ['x'] [] [] [] ['d'] false).2
      (Or.inl ⟨by decide, by decide⟩)

/-- An object snapshot as consumed by `filterAndOutput`: the accessor
results of an `unstructured.Unstructured` item (main.go lines 348-394).
`creationTimestamp` is `none` when the object carries no timestamp (Go's
`GetCreationTimestamp` then returns the zero `time.Time`); `raw` is the
serialized form returned by `MarshalJSON`. -/
structure Item where
  kind : Str
  apiVersion : Str
  nsName : Str
  name : Str
  creationTimestamp : Option Nat
  raw : Str
deriving DecidableEq

/-- Go `item.GetCreationTimestamp().Time` (main.go line 352): the zero
instant when the timestamp is missing. -/
def getCreationTimestamp (i : Item) : Nat := i.creationTimestamp.getD 0

/-- C7: an object with a missing creation timestamp is treated as the zero
instant: it is rejected whenever an after bound or a start/end window is
set, and it passes the filter under any before bound that is set on its
own. -/
theorem missing_timestamp_zero_instant (f : ResourceFilter) (i : Item)
    (h : i.creationTimestamp = none) :
    (f.After ≠ 0 → passesTimeFilter f (getCreationTimestamp i) = false) ∧
    (f.Start ≠ 0 → passesTimeFilter f (getCreationTimestamp i) = false) ∧
    (f.Before ≠ 0 → f.After = 0 → f.Start = 0 →
      passesTimeFilter f (getCreationTimestamp i) = true) := by
  have h0 : getCreationTimestamp i = 0 := by simp [getCreationTimestamp, h]
  rw [h0]
  unfold passesTimeFilter
  refine ⟨?_, ?_, ?_⟩ <;> intros <;> split_ifs <;> first | rfl | (exfalso; omega)

/-- Witness for `missing_timestamp_zero_instant` at concrete filters. -/
theorem missing_timestamp_zero_instant_witness :
    passesTimeFilter ⟨0, 3, 0, 0, [], false⟩
      (getCreationTimestamp ⟨[], [], [], [], none, []⟩) = false ∧
    passesTimeFilter ⟨5, 0, 0, 0, [], false⟩
      (getCreationTimestamp ⟨[], [], [], [], none, []⟩) = true :=
  ⟨(missing_timestamp_zero_instant ⟨0, 3, 0, 0, [], false⟩ ⟨[], [], [], [], none, []⟩ rfl).1
      (by decide),
   (missing_timestamp_zero_instant ⟨5, 0, 0, 0, [], false⟩ ⟨[], [], [], [], none, []⟩ rfl).2.2
      (by decide) rfl rfl⟩

/-- C10: for any parseable `--start`/`--end` pair with end strictly earlier
than start (before/after unset, and the resource-data/output combination
valid), the builder succeeds — it never compares start with end — and the
resulting filter rejects every object whose timestamp is non-zero, because
no instant satisfies start ≤ t ≤ end. -/
theorem inverted_window_rejects (parse : Str → Option Nat) (sS eS o : Str) (rd : Bool)
    (s e : Nat) (hs : parse sS = some s) (he : parse eS = some e)
    (hlt : e < s) (hsne : sS ≠ []) (hene : eS ≠ []) (hout : rd = true → o = []) :
    validateAndBuildFilter parse [] [] sS eS o rd = .ok ⟨0, 0, s, e, o, rd⟩ ∧
    (∀ t : Nat, t ≠ 0 → passesTimeFilter ⟨0, 0, s, e, o, rd⟩ t = false) := by
  constructor
  · cases rd with
    | false => simp [validateAndBuildFilter, parseOpt, parseWindow, hsne, hene, hs, he]
    | true =>
      have hol : o = [] := hout rfl
      subst hol
      simp [validateAndBuildFilter, parseOpt, parseWindow, hsne, hene, hs, he]
  · intro t ht
    simp only [passesTimeFilter]
    split_ifs <;> first | rfl | (exfalso; omega)

/-- Parser instance for the C10 witness. -/
def parseTwo : Str → Option Nat := fun x =>
  if x = ['s'] then some 10 else if x = ['e'] then some 3 else none

/-- Witness for `inverted_window_rejects` at concrete inputs. -/
theorem inverted_window_rejects_witness :
    validateAndBuildFilter parseTwo [] [] ['s'] ['e'] [] false
      = .ok ⟨0, 0, 10, 3, [], false⟩ ∧
    passesTimeFilter ⟨0, 0, 10, 3, [], false⟩ 7 = false :=
  ⟨(inverted_window_rejects parseTwo ['s'] ['e'] [] false 10 3 rfl rfl (by decide)
      (by decide) (by decide) (fun hc => nomatch hc)).1,
   (inverted_window_rejects parseTwo ['s'] ['e'] [] false 10 3 rfl rfl (by decide)
      (by decide) (by decide) (fun hc => nomatch hc)).2 7 (by decide)⟩

/-- Whitespace test used by Go `strings.TrimSpace`/`unicode.IsSpace` on the
characters that occur in exclusion files (space, tab, newline, vertical tab,
form feed, carriage return, next line, no-break space). -/
def isSpaceChar (c : Char) : Bool :=
  c = ' ' || c = '\t' || c = '\n' || c = Char.ofNat 11 || c = Char.ofNat 12 ||
    c = '\r' || c = Char.ofNat 133 || c = Char.ofNat 160

/-- Go `strings.TrimSpace`: drop leading and trailing whitespace. -/
def trimSpace (l : Str) : Str :=
  ((l.dropWhile isSpaceChar).reverse.dropWhile isSpaceChar).reverse

/-- A trimmed line is kept by `getExcludedGroups` iff it is non-empty and
does not start with the comment marker. -/
def keepLine (t : Str) : Bool := !(t.isEmpty || t.head? == some '#')

/-- The exclusion loader `getExcludedGroups` (main.go lines 254-282).  The
argument is the content of `$HOME/.get-resources-excluded-groups` as the
list of lines seen by `bufio.Scanner`, or `none` when the home directory or
the file cannot be opened (in which case the loader returns the empty set).
Each line is trimmed; lines that are empty or start with `#` after trimming
are skipped; every other trimmed line is inserted into the set. -/
def getExcludedGroups (file : Option (List Str)) : Finset Str :=
  match file with
  | none => ∅
  | some lines =>
    lines.foldl
      (fun s l =>
        if (trimSpace l).isEmpty || (trimSpace l).head? == some '#' then s
        else insert (trimSpace l) s) ∅

/-- Dropping a prefix whose elements all satisfy the predicate. -/
lemma dropWhile_append_all {p : Char → Bool} (ws l : Str)
    (h : ∀ c ∈ ws, p c = true) : (ws ++ l).dropWhile p = l.dropWhile p := by
  induction ws with
  | nil => rfl
  | cons a t ih =>
    have ha : p a = true := h a (List.mem_cons_self a t)
    simp only [List.cons_append, List.dropWhile_cons, ha, if_true]
    exact ih (fun c hc => h c (List.mem_cons_of_mem a hc))

/-- `dropWhile` leaves a non-vanishing remainder untouched by a suffix. -/
lemma dropWhile_append_of_ne {p : Char → Bool} (l₁ l₂ : Str)
    (h : l₁.dropWhile p ≠ []) : (l₁ ++ l₂).dropWhile p = l₁.dropWhile p ++ l₂ := by
  induction l₁ with
  | nil => exact absurd rfl h
  | cons a t ih =>
    cases ha : p a with
    | true =>
      rw [List.dropWhile_cons_of_pos ha] at h
      simp only [List.cons_append]
      rw [List.dropWhile_cons_of_pos ha, List.dropWhile_cons_of_pos ha]
      exact ih h
    | false =>
      simp only [List.cons_append]
      rw [List.dropWhile_cons_of_neg (by simp [ha]), List.dropWhile_cons_of_neg (by simp [ha])]
      simp

/-- Trailing whitespace does not change the trimmed line. -/
lemma trimSpace_append_ws (l ws : Str) (h : ∀ c ∈ ws, isSpaceChar c = true) :
    trimSpace (l ++ ws) = trimSpace l := by
  unfold trimSpace
  cases hL : l.dropWhile isSpaceChar with
  | nil =>
    have hall : ∀ c ∈ l, isSpaceChar c = true := List.dropWhile_eq_nil_iff.mp hL
    have h1 : (l ++ ws).dropWhile isSpaceChar = ws.dropWhile isSpaceChar :=
      dropWhile_append_all l ws hall
    have h2 : ws.dropWhile isSpaceChar = [] := List.dropWhile_eq_nil_iff.mpr h
    rw [h1, h2]
  | cons x xs =>
    have h1 : (l ++ ws).dropWhile isSpaceChar = (x :: xs) ++ ws := by
      rw [dropWhile_append_of_ne l ws (by rw [hL]; simp), hL]
    rw [h1, List.reverse_append]
    rw [dropWhile_append_all ws.reverse (x :: xs).reverse
      (fun c hc => h c (List.mem_reverse.mp hc))]

/-- A line of pure whitespace trims to the empty line. -/
lemma trimSpace_all_space (b : Str) (h : ∀ c ∈ b, isSpaceChar c = true) :
    trimSpace b = [] := by
  unfold trimSpace
  rw [List.dropWhile_eq_nil_iff.mpr h]
  rfl

/-- The loader as a fold equals map-trim-filter-keep, converted to a set. -/
lemma getExcludedGroups_eq_filter (lines : List Str) :
    getExcludedGroups (some lines) = ((lines.map trimSpace).filter keepLine).toFinset := by
  have aux : ∀ (ls : List Str) (s₀ : Finset Str),
      ls.foldl
        (fun s l =>
          if (trimSpace l).isEmpty || (trimSpace l).head? == some '#' then s
          else insert (trimSpace l) s) s₀ =
      s₀ ∪ ((ls.map trimSpace).filter keepLine).toFinset := by
    intro ls
    induction ls with
    | nil => intro s₀; simp
    | cons l t ih =>
      intro s₀
      rw [List.foldl_cons]
      cases hc : ((trimSpace l).isEmpty || (trimSpace l).head? == some '#') with
      | true =>
        have hk : keepLine (trimSpace l) = false := by
          unfold keepLine; rw [hc]; rfl
        rw [if_pos rfl, ih s₀, List.map_cons, List.filter_cons, hk]
        simp
      | false =>
        have hk : keepLine (trimSpace l) = true := by
          unfold keepLine; rw [hc]; rfl
        rw [if_neg (by simp), ih (insert (trimSpace l) s₀), List.map_cons,
          List.filter_cons, hk]
        simp [Finset.insert_union, Finset.union_insert]
  have hdef : getExcludedGroups (some lines) = lines.foldl
      (fun s l =>
        if (trimSpace l).isEmpty || (trimSpace l).head? == some '#' then s
        else insert (trimSpace l) s) ∅ := rfl
  rw [hdef, aux lines ∅]
  simp

/-- Two exclusion-file contents that differ only in trailing whitespace on
individual lines, in whitespace-only (blank) lines, or in comment lines
(lines starting with `#` after trimming). -/
inductive JunkEquiv : List Str → List Str → Prop
  | nil : JunkEquiv [] []
  | line (l ws₁ ws₂ : Str) (t₁ t₂ : List Str) :
      (∀ c ∈ ws₁, isSpaceChar c = true) → (∀ c ∈ ws₂, isSpaceChar c = true) →
      JunkEquiv t₁ t₂ → JunkEquiv ((l ++ ws₁) :: t₁) ((l ++ ws₂) :: t₂)
  | blank_left (b : Str) (t₁ t₂ : List Str) :
      (∀ c ∈ b, isSpaceChar c = true) → JunkEquiv t₁ t₂ → JunkEquiv (b :: t₁) t₂
  | blank_right (b : Str) (t₁ t₂ : List Str) :
      (∀ c ∈ b, isSpaceChar c = true) → JunkEquiv t₁ t₂ → JunkEquiv t₁ (b :: t₂)
  | comment_left (c : Str) (t₁ t₂ : List Str) :
      (trimSpace c).head? = some '#' → JunkEquiv t₁ t₂ → JunkEquiv (c :: t₁) t₂
  | comment_right (c : Str) (t₁ t₂ : List Str) :
      (trimSpace c).head? = some '#' → JunkEquiv t₁ t₂ → JunkEquiv t₁ (c :: t₂)

/-- A comment line is dropped by `keepLine`. -/
lemma keepLine_comment (c : Str) (h : (trimSpace c).head? = some '#') :
    keepLine (trimSpace c) = false := by
  unfold keepLine
  rw [h]
  simp

/-- A whitespace-only line is dropped by `keepLine`. -/
lemma keepLine_blank (b : Str) (h : ∀ x ∈ b, isSpaceChar x = true) :
    keepLine (trimSpace b) = false := by
  rw [trimSpace_all_space b h]
  rfl

/-- C8: the exclusion loader trims each line, discards lines that are empty
or begin with `#` after trimming, inserts the trimmed remainder of every
other line, and returns the empty set when the file cannot be opened;
consequently two file contents differing only in trailing whitespace, blank
lines, or comment lines produce identical exclusion sets. -/
theorem getExcludedGroups_spec :
    getExcludedGroups none = ∅ ∧
    (∀ lines, getExcludedGroups (some lines) =
      ((lines.map trimSpace).filter keepLine).toFinset) ∧
    (∀ l₁ l₂, JunkEquiv l₁ l₂ →
      getExcludedGroups (some l₁) = getExcludedGroups (some l₂)) := by
  refine ⟨rfl, getExcludedGroups_eq_filter, ?_⟩
  intro l₁ l₂ h
  rw [getExcludedGroups_eq_filter, getExcludedGroups_eq_filter]
  induction h with
  | nil => rfl
  | line l ws₁ ws₂ t₁ t₂ h1 h2 hj ih =>
    rw [List.map_cons, List.map_cons, List.filter_cons, List.filter_cons,
      trimSpace_append_ws l ws₁ h1, trimSpace_append_ws l ws₂ h2]
    cases hk : keepLine (trimSpace l) with
    | true => rw [if_pos rfl, if_pos rfl, List.toFinset_cons, List.toFinset_cons, ih]
    | false => rw [if_neg (by simp), if_neg (by simp)]; exact ih
  | blank_left b t₁ t₂ hb hj ih =>
    rw [List.map_cons, List.filter_cons, keepLine_blank b hb]
    exact ih
  | blank_right b t₁ t₂ hb hj ih =>
    rw [List.map_cons, List.filter_cons, keepLine_blank b hb]
    exact ih
  | comment_left c t₁ t₂ hcm hj ih =>
    rw [List.map_cons, List.filter_cons, keepLine_comment c hcm]
    exact ih
  | comment_right c t₁ t₂ hcm hj ih =>
    rw [List.map_cons, List.filter_cons, keepLine_comment c hcm]
    exact ih

/-- Witness for `getExcludedGroups_spec`: a file with trailing whitespace, a
blank line and a comment line yields the same set as the bare one-line
file. -/
theorem getExcludedGroups_spec_witness :
    getExcludedGroups (some [( "events.k8s.io".data ++ "  ".data), "   ".data,
        "# comment".data]) =
      getExcludedGroups (some [( "events.k8s.io".data ++ [])]) :=
  getExcludedGroups_spec.2.2 _ _
    (.line "events.k8s.io".data "  ".data [] _ _ (by decide) (by decide)
      (.blank_left "   ".data _ _ (by decide)
        (.comment_left "# comment".data _ _ (by decide) .nil)))

/-- One entry of a discovery group's `APIResources` list (the fields of
`metav1.APIResource` that the walker reads). -/
structure APIResource where
  name : Str
  kind : Str
  namespaced : Bool
deriving DecidableEq

/-- One discovery group as returned by `ServerPreferredResources`: a
`groupVersion` string and the resource descriptors advertised under it. -/
structure APIResourceList where
  groupVersion : Str
  resources : List APIResource
deriving DecidableEq

/-- `schema.GroupVersionResource`. -/
structure GroupVersionResource where
  group : Str
  version : Str
  resource : Str
deriving DecidableEq

/-- A descriptor emitted by the walker: the coordinate built at main.go
line 314 together with the `Namespaced` flag and kind of the resource it
came from. -/
structure APIDescriptor where
  gvr : GroupVersionResource
  namespaced : Bool
  kind : Str
deriving DecidableEq

/-- The descriptors the discovery loop of `processResources` (main.go lines
293-314) reaches its list calls with, in server order: groups whose
`groupVersion` fails to parse (the external `schema.ParseGroupVersion`,
passed as `parseGV`) are skipped silently, excluded groups are skipped,
sub-resources (plural containing a slash) are skipped, and the core v1
events kind is skipped. -/
def discoverDescriptors (parseGV : Str → Option (Str × Str))
    (excludedGroups : Finset Str) (apiResources : List APIResourceList) :
    List APIDescriptor :=
  apiResources.flatMap (fun grp =>
    match parseGV grp.groupVersion with
    | none => []
    | some (g, v) =>
      if g ∈ excludedGroups then []
      else
        grp.resources.filterMap (fun r =>
          if r.name.contains '/' then none
          else if g = [] ∧ v = v1Str ∧ (r.name = eventsStr ∨ r.kind = eventKind) then none
          else some ⟨⟨g, v, r.name⟩, r.namespaced, r.kind⟩))

/-- The scope of one dynamic-client list call. -/
inductive Target where
  | namespaceScoped (ns : Str)
  | clusterScoped
deriving DecidableEq

/-- `metav1.NamespaceAll`, the empty string: listing with it returns
namespaced objects across all namespaces. -/
def NamespaceAll : Str := []

/-- One list call issued by `processResources`. -/
structure ListCall where
  desc : APIDescriptor
  target : Target
deriving DecidableEq

/-- The list calls `processResources` issues for one descriptor (main.go
lines 316-341): namespaced resources are listed once with the all-namespaces
sentinel when the namespace list is `nil` or exactly `["*"]`, else once per
listed namespace; cluster-scoped resources are listed unscoped when cluster
inclusion is enabled; everything else is skipped. -/
def listCallsFor (nss : Option (List Str)) (includeCluster processNamespaced : Bool)
    (d : APIDescriptor) : List ListCall :=
  if d.namespaced && processNamespaced then
    if nss = none ∨ nss = some [starStr] then [⟨d, .namespaceScoped NamespaceAll⟩]
    else (nss.getD []).map (fun ns => ⟨d, .namespaceScoped ns⟩)
  else if !d.namespaced && includeCluster then [⟨d, .clusterScoped⟩]
  else []

/-- All list calls of one `processResources` run, in discovery order.  The
exclusion file content is threaded through `getExcludedGroups`, as at
main.go line 291. -/
def processResourcesCalls (parseGV : Str → Option (Str × Str))
    (exclusionFile : Option (List Str)) (apiResources : List APIResourceList)
    (nss : Option (List Str)) (includeCluster processNamespaced : Bool) : List ListCall :=
  (discoverDescriptors parseGV (getExcludedGroups exclusionFile) apiResources).flatMap
    (listCallsFor nss includeCluster processNamespaced)

/-- The mode-selection `switch` of `main` (main.go lines 154-178), reduced
to the arguments handed to `processResources`: `none` models the
nothing-to-process exit, `some (nss, includeCluster, processNamespaced)`
models the call made by the chosen `process*` wrapper (main.go lines
238-252), where `nss = none` is Go's `nil` namespace slice. -/
def driverDispatch (namespaces : List Str) (excludeCluster : Bool) :
    Option (Option (List Str) × Bool × Bool) :=
  if namespaces = [] then
    if excludeCluster then none else some (none, true, true)
  else if namespaces = [[]] then some (none, true, false)
  else if contains namespaces starStr then
    if excludeCluster then some (some [starStr], false, true) else some (none, true, true)
  else if excludeCluster then some (some namespaces, false, true)
  else some (some namespaces, true, true)

/-- Every list call generated for a descriptor carries that descriptor. -/
lemma listCallsFor_desc (nss : Option (List Str)) (ic pn : Bool) (d : APIDescriptor)
    (c : ListCall) (h : c ∈ listCallsFor nss ic pn d) : c.desc = d := by
  unfold listCallsFor at h
  split_ifs at h with h1 hall h2
  · simp at h; rw [h]
  · rw [List.mem_map] at h
    obtain ⟨ns, _, heq⟩ := h
    rw [← heq]
  · simp at h; rw [h]
  · simp at h

/-- Go `contains` agrees with list membership. -/
lemma contains_iff_mem (l : List Str) (v : Str) : contains l v = true ↔ v ∈ l := by
  induction l with
  | nil => simp [contains]
  | cons a t ih =>
    unfold contains
    split_ifs with ha
    · subst ha; simp
    · simp only [List.mem_cons, ih]
      constructor
      · exact Or.inr
      · rintro (rfl | hm)
        · exact absurd rfl ha
        · exact hm

/-- C3: the discovery walker never emits (hence never issues a list call
for) a descriptor whose plural contains a slash, never emits the core v1
events coordinate (by resource name or kind), never emits a descriptor of
an excluded group, and silently skips a whole group whose `groupVersion`
fails to parse. -/
theorem discovery_skip_invariants (parseGV : Str → Option (Str × Str))
    (exclusionFile : Option (List Str)) (api : List APIResourceList)
    (nss : Option (List Str)) (ic pn : Bool) :
    (∀ d ∈ discoverDescriptors parseGV (getExcludedGroups exclusionFile) api,
      d.gvr.resource.contains '/' = false ∧
      ¬(d.gvr.group = [] ∧ d.gvr.version = v1Str ∧
        (d.gvr.resource = eventsStr ∨ d.kind = eventKind)) ∧
      d.gvr.group ∉ getExcludedGroups exclusionFile) ∧
    (∀ c ∈ processResourcesCalls parseGV exclusionFile api nss ic pn,
      c.desc ∈ discoverDescriptors parseGV (getExcludedGroups exclusionFile) api) ∧
    (∀ (pre : List APIResourceList) (g : APIResourceList) (post : List APIResourceList),
      parseGV g.groupVersion = none →
      discoverDescriptors parseGV (getExcludedGroups exclusionFile) (pre ++ g :: post) =
        discoverDescriptors parseGV (getExcludedGroups exclusionFile) (pre ++ post) ∧
      processResourcesCalls parseGV exclusionFile (pre ++ g :: post) nss ic pn =
        processResourcesCalls parseGV exclusionFile (pre ++ post) nss ic pn) := by
  refine ⟨?_, ?_, ?_⟩
  · intro d hd
    unfold discoverDescriptors at hd
    rw [List.mem_flatMap] at hd
    obtain ⟨grp, _, hmem⟩ := hd
    cases hp : parseGV grp.groupVersion with
    | none => rw [hp] at hmem; simp at hmem
    | some gv =>
      obtain ⟨g, v⟩ := gv
      simp only [hp] at hmem
      split_ifs at hmem with hex
      · simp at hmem
      · rw [List.mem_filterMap] at hmem
        obtain ⟨r, _, heq⟩ := hmem
        split_ifs at heq with hslash hevents
        simp only [Option.some.injEq] at heq
        subst heq
        exact ⟨by simpa using hslash, hevents, hex⟩
  · intro c hc
    unfold processResourcesCalls at hc
    rw [List.mem_flatMap] at hc
    obtain ⟨d, hd, hcall⟩ := hc
    rw [listCallsFor_desc nss ic pn d c hcall]
    exact hd
  · intro pre g post hp
    have hdesc : discoverDescriptors parseGV (getExcludedGroups exclusionFile)
        (pre ++ g :: post) =
        discoverDescriptors parseGV (getExcludedGroups exclusionFile) (pre ++ post) := by
      unfold discoverDescriptors
      rw [List.flatMap_append, List.flatMap_cons, List.flatMap_append, hp]
      simp
    refine ⟨hdesc, ?_⟩
    unfold processResourcesCalls
    rw [hdesc]

/-- Discovery parser for the witnesses: parses the core group version "v1"
and fails on anything else (as `schema.ParseGroupVersion` fails on strings
with two slashes, such as "a/b/c"). -/
def parseGVW : Str → Option (Str × Str) := fun s =>
  if s = v1Str then some ([], v1Str) else none

/-- Exclusion-file content for the witnesses. -/
def exclW : Option (List Str) := some [ "metrics.k8s.io".data]

/-- A core discovery group for the witnesses, containing a plain resource,
a sub-resource and the core events kind. -/
def coreGroup : APIResourceList :=
  ⟨v1Str, [⟨ "pods".data, "Pod".data, true⟩, ⟨ "pods/status".data, "Pod".data, true⟩,
    ⟨eventsStr, eventKind, true⟩]⟩

/-- A discovery group whose groupVersion string fails to parse. -/
def badGroup : APIResourceList := ⟨ "a/b/c".data, [⟨ "x".data, "X".data, true⟩]⟩

/-- The pods descriptor emitted from `coreGroup`. -/
def podsDesc : APIDescriptor := ⟨⟨[], v1Str, "pods".data⟩, true, "Pod".data⟩

/-- Witness for `discovery_skip_invariants` on a concrete snapshot. -/
theorem discovery_skip_invariants_witness :
    (podsDesc.gvr.resource.contains '/' = false ∧
      ¬(podsDesc.gvr.group = [] ∧ podsDesc.gvr.version = v1Str ∧
        (podsDesc.gvr.resource = eventsStr ∨ podsDesc.kind = eventKind)) ∧
      podsDesc.gvr.group ∉ getExcludedGroups exclW) ∧
    discoverDescriptors parseGVW (getExcludedGroups exclW) ([] ++ badGroup :: [coreGroup]) =
      discoverDescriptors parseGVW (getExcludedGroups exclW) ([] ++ [coreGroup]) :=
  ⟨(discovery_skip_invariants parseGVW exclW [coreGroup] none true true).1 podsDesc
      (by decide),
   ((discovery_skip_invariants parseGVW exclW [coreGroup] none true true).2.2
      [] badGroup [coreGroup] (by decide)).1⟩

/-- C9 counterexample: the namespace list ["", "*"] contains the empty
string together with another entry, yet the driver takes the all-resources
branch (it hands `processResources` a nil namespace slice), not the
named-namespaces branch that would pass the list through. -/
theorem driver_star_empty_counterexample :
    driverDispatch [[], starStr] false = some (none, true, true) ∧
    driverDispatch [[], starStr] false ≠ some (some [[], starStr], true, true) ∧
    driverDispatch [[], starStr] false ≠ some (some [[], starStr], false, true) := by
  refine ⟨by decide, by decide, by decide⟩

/-- C9 (amended): when the namespace list contains the empty string together
with at least one other entry and no entry is "*", the driver does not
select cluster-only mode; it takes the named-namespaces branch, passing the
list through unchanged, and the list call generated for the empty-string
entry is exactly the all-namespaces sentinel call (Go's
`metav1.NamespaceAll` is the empty string). -/
theorem driver_empty_entry_named_branch (nss : List Str) (excl : Bool)
    (hmem : [] ∈ nss) (hlen : 2 ≤ nss.length) (hstar : starStr ∉ nss) :
    driverDispatch nss excl = some (some nss, !excl, true) ∧
    driverDispatch nss excl ≠ some (none, true, false) ∧
    (∀ d : APIDescriptor, d.namespaced = true →
      listCallsFor (some nss) (!excl) true d =
        nss.map (fun ns => ⟨d, .namespaceScoped ns⟩) ∧
      (⟨d, .namespaceScoped NamespaceAll⟩ : ListCall) ∈
        listCallsFor (some nss) (!excl) true d ∧
      listCallsFor none (!excl) true d = [⟨d, .namespaceScoped NamespaceAll⟩]) := by
  have hne : nss ≠ [] := by
    intro hc
    rw [hc] at hmem
    simp at hmem
  have hne1 : nss ≠ [[]] := by
    intro hc
    rw [hc] at hlen
    exact absurd hlen (by decide)
  have hcont : contains nss starStr = false := by
    cases hcb : contains nss starStr
    · rfl
    · exact absurd ((contains_iff_mem nss starStr).mp hcb) hstar
  have hd : driverDispatch nss excl =
      if excl then some (some nss, false, true) else some (some nss, true, true) := by
    unfold driverDispatch
    rw [if_neg hne, if_neg hne1, if_neg (by simp [hcont])]
  refine ⟨?_, ?_, ?_⟩
  · rw [hd]
    cases excl <;> rfl
  · rw [hd]
    cases excl <;> simp
  · intro d hnd
    have hcond : (d.namespaced && true) = true := by rw [hnd]; rfl
    have hns : ¬(some nss = (none : Option (List Str)) ∨ some nss = some [starStr]) := by
      rintro (hc | hc)
      · exact absurd hc (by simp)
      · rw [Option.some.injEq] at hc
        rw [hc] at hlen
        exact absurd hlen (by decide)
    have hmap : listCallsFor (some nss) (!excl) true d =
        nss.map (fun ns => ⟨d, .namespaceScoped ns⟩) := by
      unfold listCallsFor
      rw [if_pos hcond, if_neg hns]
      rfl
    refine ⟨hmap, ?_, ?_⟩
    · rw [hmap]
      exact List.mem_map_of_mem _ hmem
    · unfold listCallsFor
      rw [if_pos hcond, if_pos (Or.inl rfl)]

/-- Witness for `driver_empty_entry_named_branch` at ["", "foo"]. -/
theorem driver_empty_entry_named_branch_witness :
    driverDispatch [[], "foo".data] false = some (some [[], "foo".data], true, true) ∧
    (⟨podsDesc, .namespaceScoped NamespaceAll⟩ : ListCall) ∈
      listCallsFor (some [[], "foo".data]) true true podsDesc := by
  have h := driver_empty_entry_named_branch [[], "foo".data] false (by decide) (by decide)
    (by decide)
  exact ⟨h.1, (h.2.2 podsDesc rfl).2.1⟩

/-- Slash-join of a list of path components assumed non-empty. -/
def joinAll : List Str → Str
  | [] => []
  | [p] => p
  | p :: q :: rest => p ++ '/' :: joinAll (q :: rest)

/-- Go `filepath.Join`: drop empty components and join the rest with
slashes (for slash-free components the subsequent `Clean` is the
identity). -/
def joinPath (parts : List Str) : Str :=
  joinAll (parts.filter (fun p => !p.isEmpty))

/-- Appending one more non-empty component to a non-empty join. -/
lemma joinAll_append_single (l : List Str) (d : Str) (h : l ≠ []) :
    joinAll (l ++ [d]) = joinAll l ++ '/' :: d := by
  induction l with
  | nil => exact absurd rfl h
  | cons a t ih =>
    cases t with
    | nil => rfl
    | cons b t2 =>
      calc joinAll ((a :: b :: t2) ++ [d])
          = a ++ '/' :: joinAll ((b :: t2) ++ [d]) := rfl
        _ = a ++ '/' :: (joinAll (b :: t2) ++ '/' :: d) := by rw [ih (by simp)]
        _ = (a ++ '/' :: joinAll (b :: t2)) ++ '/' :: d := by simp
        _ = joinAll (a :: b :: t2) ++ '/' :: d := rfl

/-- A join of non-empty components is non-empty. -/
lemma joinAll_ne_nil (l : List Str) (h : l ≠ []) (hall : ∀ p ∈ l, p ≠ []) :
    joinAll l ≠ [] := by
  cases l with
  | nil => exact absurd rfl h
  | cons a t =>
    cases t with
    | nil => exact hall a (by simp)
    | cons b t2 =>
      show a ++ '/' :: joinAll (b :: t2) ≠ []
      simp

/-- Two-step `filepath.Join` (directory first, then filename) flattens to a
single four-component join. -/
lemma joinPath_flatten (a b c d : Str) :
    joinPath [joinPath [a, b, c], d] = joinPath [a, b, c, d] := by
  unfold joinPath
  rw [show ([a, b, c, d] : List Str) = [a, b, c] ++ [d] from rfl, List.filter_append]
  cases hF : List.filter (fun p => !p.isEmpty) [a, b, c] with
  | nil => simp [joinAll, List.filter_cons]
  | cons x t =>
    have hXne : joinAll (x :: t) ≠ [] := by
      refine joinAll_ne_nil _ (by simp) (fun p hp => ?_)
      have hmem : p ∈ List.filter (fun q => !q.isEmpty) [a, b, c] := by rw [hF]; exact hp
      have := List.of_mem_filter hmem
      simpa using this
    have hfl : List.filter (fun p => !p.isEmpty) [joinAll (x :: t), d] =
        joinAll (x :: t) :: List.filter (fun p => !p.isEmpty) [d] := by
      rw [List.filter_cons, if_pos (by simpa using hXne)]
    rw [hfl]
    by_cases hde : d = []
    · subst hde
      simp [joinAll]
    · have hfd : List.filter (fun p => !p.isEmpty) [d] = [d] := by
        rw [List.filter_cons, if_pos (by simpa using hde)]
        rfl
      rw [hfd, joinAll_append_single (x :: t) d (by simp)]
      rfl

/-- The destination path built by the tree-sink branch of `filterAndOutput`
(main.go lines 369-378): `filepath.Join(outputDir, namespace, plural)` for
the directory, then the filename `[openshift_]<name>.yaml`, prefixed iff the
group ends with "openshift.io". -/
def treeDestPath (outputDir : Str) (g : GroupVersionResource) (item : Item) : Str :=
  joinPath [joinPath [outputDir, item.nsName, g.resource],
    if osSuffix.isSuffixOf g.group then osMark ++ item.name ++ yamlExt
    else item.name ++ yamlExt]

/-- What one object produces at a sink: a file in the output tree or one
CSV record on standard output. -/
inductive SinkOutput where
  | treeFile (path : Str) (raw : Str)
  | csvRow (fields : List Str)
deriving DecidableEq

/-- The per-object sink dispatch of `filterAndOutput` (main.go lines
369-390), for an object that survived the time filter and marshalled
successfully: a non-empty `OutputDir` writes a tree file (the body being the
YAML re-encoding of `raw`, external); otherwise a CSV record, with the
serialized payload as last column iff `ResourceData` is set.  `fmtT` is the
external RFC 3339 UTC formatter. -/
def outputOne (fmtT : Nat → Str) (f : ResourceFilter) (g : GroupVersionResource)
    (item : Item) : SinkOutput :=
  if f.OutputDir ≠ [] then .treeFile (treeDestPath f.OutputDir g item) item.raw
  else if f.ResourceData then
    .csvRow [item.kind, g.resource, item.apiVersion, item.nsName, item.name,
      fmtT (getCreationTimestamp item), item.raw]
  else
    .csvRow [item.kind, g.resource, item.apiVersion, item.nsName, item.name,
      fmtT (getCreationTimestamp item)]

/-- `filterAndOutput` (main.go lines 348-395): each listed item is dropped
by the time filter or produces exactly one sink output, in order. -/
def filterAndOutput (fmtT : Nat → Str) (items : List Item) (g : GroupVersionResource)
    (f : ResourceFilter) : List SinkOutput :=
  items.flatMap (fun item =>
    if passesTimeFilter f (getCreationTimestamp item) then [outputOne fmtT f g item]
    else [])

/-- `filterAndOutput` emits exactly one output per surviving item. -/
lemma filterAndOutput_eq (fmtT : Nat → Str) (items : List Item)
    (g : GroupVersionResource) (f : ResourceFilter) :
    filterAndOutput fmtT items g f =
      (items.filter (fun it => passesTimeFilter f (getCreationTimestamp it))).map
        (outputOne fmtT f g) := by
  induction items with
  | nil => rfl
  | cons it rest ih =>
    unfold filterAndOutput
    rw [List.flatMap_cons, List.filter_cons]
    by_cases hp : passesTimeFilter f (getCreationTimestamp it) = true
    · rw [if_pos hp, if_pos hp, List.map_cons]
      unfold filterAndOutput at ih
      rw [ih]
      rfl
    · rw [if_neg hp, if_neg hp]
      unfold filterAndOutput at ih
      rw [List.nil_append, ih]

/-- C4: for every Filter, each object surviving the time filter is consumed
by exactly one sink, chosen purely from the Filter: non-empty `OutputDir`
routes to the tree sink and produces no CSV record; otherwise
`ResourceData` routes to the tabular sink with the payload column;
otherwise to the tabular sink without it. -/
theorem outputOne_routing (fmtT : Nat → Str) (f : ResourceFilter)
    (g : GroupVersionResource) (item : Item) (items : List Item) :
    (f.OutputDir ≠ [] →
      outputOne fmtT f g item = .treeFile (treeDestPath f.OutputDir g item) item.raw ∧
      ∀ fields, outputOne fmtT f g item ≠ .csvRow fields) ∧
    (f.OutputDir = [] → f.ResourceData = true →
      outputOne fmtT f g item = .csvRow [item.kind, g.resource, item.apiVersion,
        item.nsName, item.name, fmtT (getCreationTimestamp item), item.raw]) ∧
    (f.OutputDir = [] → f.ResourceData = false →
      outputOne fmtT f g item = .csvRow [item.kind, g.resource, item.apiVersion,
        item.nsName, item.name, fmtT (getCreationTimestamp item)]) ∧
    filterAndOutput fmtT items g f =
      (items.filter (fun it => passesTimeFilter f (getCreationTimestamp it))).map
        (outputOne fmtT f g) := by
  refine ⟨?_, ?_, ?_, filterAndOutput_eq fmtT items g f⟩
  · intro ho
    unfold outputOne
    rw [if_pos ho]
    exact ⟨rfl, fun fields => by simp⟩
  · intro ho hrd
    unfold outputOne
    rw [if_neg (by simp [ho]), if_pos hrd]
  · intro ho hrd
    unfold outputOne
    rw [if_neg (by simp [ho]), if_neg (by simp [hrd])]

/-- A concrete item for the witnesses. -/
def itemW : Item :=
  ⟨ "Role".data, "authorization.openshift.io/v1".data, [], "foo".data, some 7, "raw".data⟩

/-- A concrete coordinate for the witnesses, in an openshift.io group. -/
def gvrW : GroupVersionResource :=
  ⟨ "authorization.openshift.io".data, v1Str, "roles".data⟩

/-- Witness for `outputOne_routing` at a concrete tree-sink filter. -/
theorem outputOne_routing_witness :
    outputOne (fun _ => []) ⟨0, 0, 0, 0, ['d'], false⟩ gvrW itemW =
      .treeFile (treeDestPath ['d'] gvrW itemW) itemW.raw ∧
    outputOne (fun _ => []) ⟨0, 0, 0, 0, ['d'], false⟩ gvrW itemW ≠ .csvRow [] ∧
    outputOne (fun _ => []) ⟨0, 0, 0, 0, [], true⟩ gvrW itemW =
      .csvRow [itemW.kind, gvrW.resource, itemW.apiVersion, itemW.nsName, itemW.name,
        [], itemW.raw] := by
  have h1 := (outputOne_routing (fun _ => []) ⟨0, 0, 0, 0, ['d'], false⟩ gvrW itemW []).1
    (by decide)
  have h2 := (outputOne_routing (fun _ => []) ⟨0, 0, 0, 0, [], true⟩ gvrW itemW []).2.1
    rfl rfl
  exact ⟨h1.1, h1.2 [], h2⟩

/-- C6: the tree sink writes to
`<outputDir>/<namespace-or-empty>/<plural>/<marker><name>.yaml`, where the
marker is `openshift_` iff the coordinate's group ends with `openshift.io`,
and the namespace level of a cluster-scoped object (empty namespace) simply
vanishes from the joined path. -/
theorem treeDestPath_spec (o : Str) (g : GroupVersionResource) (item : Item) :
    treeDestPath o g item =
      joinPath [o, item.nsName, g.resource,
        (if osSuffix.isSuffixOf g.group then osMark else []) ++ item.name ++ yamlExt] ∧
    (item.nsName = [] →
      treeDestPath o g item =
        joinPath [o, g.resource,
          (if osSuffix.isSuffixOf g.group then osMark else []) ++ item.name ++ yamlExt]) := by
  have h1 : treeDestPath o g item =
      joinPath [o, item.nsName, g.resource,
        (if osSuffix.isSuffixOf g.group then osMark else []) ++ item.name ++ yamlExt] := by
    unfold treeDestPath
    rw [joinPath_flatten]
    by_cases hs : osSuffix.isSuffixOf g.group = true
    · rw [if_pos hs, if_pos hs]
    · rw [if_neg hs, if_neg hs]
      simp
  refine ⟨h1, fun hns => ?_⟩
  rw [h1, hns]
  unfold joinPath
  simp [List.filter_cons]

/-- Witness for `treeDestPath_spec`: a cluster-scoped openshift.io object. -/
theorem treeDestPath_spec_witness :
    treeDestPath ['d'] gvrW itemW =
      joinPath [['d'], gvrW.resource,
        (if osSuffix.isSuffixOf gvrW.group then osMark else []) ++ itemW.name ++ yamlExt] :=
  (treeDestPath_spec ['d'] gvrW itemW).2 rfl

/-- One line on standard output: a header variant, the nothing-to-process
message, or a CSV data row. -/
inductive StdoutLine where
  | headerData
  | headerPlain
  | nothingMsg
  | dataRow (fields : List Str)
deriving DecidableEq

/-- Header-line test. -/
def isHeaderLine : StdoutLine → Bool
  | .headerData => true
  | .headerPlain => true
  | _ => false

/-- The header emission of `main` (main.go lines 147-151): the data-column
header when `--resource-data` is set, the plain header when no output
directory is given, and no header otherwise. -/
def headerLines (resourceData : Bool) (outputDir : Str) : List StdoutLine :=
  if resourceData then [.headerData]
  else if outputDir = [] then [.headerPlain]
  else []

/-- The sink outputs of one `processResources` run (main.go lines 284-345):
for each generated list call, a failing list (oracle `none`, the
silently-skipped error path) contributes nothing, a successful one feeds its
items through `filterAndOutput`. -/
def processResources (fmtT : Nat → Str) (parseGV : Str → Option (Str × Str))
    (exclusionFile : Option (List Str)) (api : List APIResourceList)
    (nss : Option (List Str)) (ic pn : Bool)
    (oracle : ListCall → Option (List Item)) (f : ResourceFilter) : List SinkOutput :=
  (processResourcesCalls parseGV exclusionFile api nss ic pn).flatMap (fun c =>
    match oracle c with
    | none => []
    | some items => filterAndOutput fmtT items c.desc.gvr f)

/-- The stdout lines produced after the driver dispatch: the
nothing-to-process message, or the CSV rows of the run (tree files go to
disk, not stdout). -/
def rowsOf (fmtT : Nat → Str) (parseGV : Str → Option (Str × Str))
    (exclusionFile : Option (List Str)) (api : List APIResourceList)
    (oracle : ListCall → Option (List Item)) :
    Option (Option (List Str) × Bool × Bool) → ResourceFilter → List StdoutLine
  | none, _ => [.nothingMsg]
  | some (nss, ic, pn), f =>
    (processResources fmtT parseGV exclusionFile api nss ic pn oracle f).filterMap
      (fun s =>
        match s with
        | .csvRow fields => some (.dataRow fields)
        | .treeFile _ _ => none)

/-- Everything `main` (main.go lines 117-179) prints to standard output:
nothing when flag validation fails (`log.Fatalf` writes to stderr), else
the header lines followed by the dispatched run's rows. -/
def mainStdout (parse : Str → Option Nat) (fmtT : Nat → Str)
    (parseGV : Str → Option (Str × Str)) (exclusionFile : Option (List Str))
    (api : List APIResourceList) (oracle : ListCall → Option (List Item))
    (namespaces : List Str) (excludeCluster : Bool)
    (beforeS afterS startS endS outputDir : Str) (resourceData : Bool) :
    List StdoutLine :=
  match validateAndBuildFilter parse beforeS afterS startS endS outputDir resourceData with
  | .error _ => []
  | .ok f =>
    headerLines resourceData outputDir ++
      rowsOf fmtT parseGV exclusionFile api oracle
        (driverDispatch namespaces excludeCluster) f

/-- No stdout line after the header block is a header line. -/
lemma rowsOf_no_header (fmtT : Nat → Str) (parseGV : Str → Option (Str × Str))
    (exclusionFile : Option (List Str)) (api : List APIResourceList)
    (oracle : ListCall → Option (List Item))
    (args : Option (Option (List Str) × Bool × Bool)) (f : ResourceFilter)
    (l : StdoutLine) (hl : l ∈ rowsOf fmtT parseGV exclusionFile api oracle args f) :
    isHeaderLine l = false := by
  cases args with
  | none =>
    simp [rowsOf] at hl
    rw [hl]
    rfl
  | some args =>
    obtain ⟨nss, ic, pn⟩ := args
    simp only [rowsOf, List.mem_filterMap] at hl
    obtain ⟨s, _, hs⟩ := hl
    cases s with
    | treeFile p r => exact absurd hs (by simp)
    | csvRow fields =>
      simp only [Option.some.injEq] at hs
      rw [← hs]
      rfl

/-- C5: on every run whose flag validation succeeds, exactly zero header
lines reach standard output when an output directory is given and exactly
one otherwise (the data-column variant iff `--resource-data` is set), and
the whole output is the header block followed by non-header lines, so the
header precedes every data row. -/
theorem header_emission (parse : Str → Option Nat) (fmtT : Nat → Str)
    (parseGV : Str → Option (Str × Str)) (exclusionFile : Option (List Str))
    (api : List APIResourceList) (oracle : ListCall → Option (List Item))
    (namespaces : List Str) (excludeCluster : Bool)
    (beforeS afterS startS endS outputDir : Str) (resourceData : Bool)
    (f : ResourceFilter)
    (hok : validateAndBuildFilter parse beforeS afterS startS endS outputDir
      resourceData = .ok f) :
    ((mainStdout parse fmtT parseGV exclusionFile api oracle namespaces excludeCluster
        beforeS afterS startS endS outputDir resourceData).filter isHeaderLine).length =
      (if outputDir = [] then 1 else 0) ∧
    (outputDir = [] →
      (mainStdout parse fmtT parseGV exclusionFile api oracle namespaces excludeCluster
        beforeS afterS startS endS outputDir resourceData).filter isHeaderLine =
      [if resourceData then .headerData else .headerPlain]) ∧
    (∃ body, (∀ l ∈ body, isHeaderLine l = false) ∧
      mainStdout parse fmtT parseGV exclusionFile api oracle namespaces excludeCluster
        beforeS afterS startS endS outputDir resourceData =
      headerLines resourceData outputDir ++ body) := by
  have hrd : resourceData = true → outputDir = [] := by
    intro h
    obtain ⟨_, _, hro, _⟩ := validateAndBuildFilter_ok_cases _ _ _ _ _ _ _ _ hok
    by_contra hone
    exact hro ⟨h, hone⟩
  have hmain : mainStdout parse fmtT parseGV exclusionFile api oracle namespaces
      excludeCluster beforeS afterS startS endS outputDir resourceData =
      headerLines resourceData outputDir ++
        rowsOf fmtT parseGV exclusionFile api oracle
          (driverDispatch namespaces excludeCluster) f := by
    unfold mainStdout
    simp only [hok]
  have hrows : (rowsOf fmtT parseGV exclusionFile api oracle
      (driverDispatch namespaces excludeCluster) f).filter isHeaderLine = [] := by
    rw [List.filter_eq_nil_iff]
    intro l hl
    rw [rowsOf_no_header fmtT parseGV exclusionFile api oracle _ f l hl]
    simp
  have hhdr : (headerLines resourceData outputDir).filter isHeaderLine =
      headerLines resourceData outputDir := by
    unfold headerLines
    split_ifs <;> rfl
  refine ⟨?_, ?_, ?_⟩
  · rw [hmain, List.filter_append, hrows, List.append_nil, hhdr]
    unfold headerLines
    split_ifs with h1 h2 <;> first | rfl | exact absurd (hrd h1) h2
  · intro ho
    rw [hmain, List.filter_append, hrows, List.append_nil, hhdr]
    cases resourceData with
    | true => simp [headerLines]
    | false => simp [headerLines, ho]
  · exact ⟨rowsOf fmtT parseGV exclusionFile api oracle
      (driverDispatch namespaces excludeCluster) f,
      fun l hl => rowsOf_no_header fmtT parseGV exclusionFile api oracle _ f l hl, hmain⟩

/-- Witness for `header_emission` on a minimal concrete run. -/
theorem header_emission_witness :
    ((mainStdout (fun _ => none) (fun _ => []) (fun _ => none) none [] (fun _ => none)
        [] false [] [] [] [] [] false).filter isHeaderLine).length = 1 := by
  have h := (header_emission (fun _ => none) (fun _ => []) (fun _ => none) none []
    (fun _ => none) [] false [] [] [] [] [] false ⟨0, 0, 0, 0, [], false⟩ rfl).1
  simpa using h
